import Mathlib

/-!
Verification development for the PromptSuite prompt-variation engine.

The definitions below are a shallow embedding of the Python sources:
  - `src/multipromptify/engine.py`                         (engine driver, row combinator)
  - `src/multipromptify/generation/variation_generator.py` (field expander)
  - `src/multipromptify/generation/few_shot_handler.py`    (few-shot config validation, main input)
  - `src/promptsuite/augmentations/structure/fewshot.py`   (few-shot selector)
  - `src/multipromptify/template_parser.py`                (template validation)
  - `src/multipromptify/utils/formatting.py`               (formatting, gold extraction)
  - `src/augmentations/multiple_choice_augmenter.py`       (multiple-choice augmenter)

Python strings are modelled as `List Char`; Python builtins used by the code
(`str.replace`, `str.strip`, `random.shuffle`, `pandas.DataFrame.sample`, `pandas`
label indexing) are modelled explicitly as executable Lean functions reproducing
their documented behaviour.
-/

deriving instance DecidableEq for Except

namespace PromptSuite

/-- Python strings, modelled as character lists so that every operation used by the
code (`replace`, `strip`, `in`, `+`) has an executable, kernel-reducible model. -/
abbrev Str := List Char

/-- Convert a Lean string literal to the model type. -/
def lit (s : String) : Str := s.toList

/-- Model of the Python expression `pat in s` (substring containment). -/
def containsSub (pat : Str) : Str → Bool
  | [] => pat.isPrefixOf []
  | c :: rest => pat.isPrefixOf (c :: rest) || containsSub pat rest

/-- Fuel-driven worker for `pyReplace`; the fuel is an upper bound on the length of
the remaining text, so `fuel = s.length` always suffices. -/
def pyReplaceGo (pat repl : Str) : Nat → Str → Str
  | _, [] => []
  | 0, s => s
  | fuel + 1, c :: rest =>
    if !pat.isEmpty && pat.isPrefixOf (c :: rest) then
      repl ++ pyReplaceGo pat repl fuel ((c :: rest).drop pat.length)
    else
      c :: pyReplaceGo pat repl fuel rest

/-- Model of Python `s.replace(pat, repl)`: a single left-to-right pass replacing
non-overlapping occurrences of `pat` found in the original text.  Python's
`str.replace` with an empty pattern inserts `repl` everywhere; the code only ever
calls it with non-empty placeholder patterns, and the model returns `s` unchanged
for an empty pattern. -/
def pyReplace (s pat repl : Str) : Str :=
  pyReplaceGo pat repl s.length s

/-- Characters stripped by Python `str.strip()`. -/
def isPySpace (c : Char) : Bool :=
  c = ' ' || c = '\n' || c = '\t' || c = '\r'

/-- Model of Python `s.strip()`. -/
def pyStrip (s : Str) : Str :=
  ((s.dropWhile isPySpace).reverse.dropWhile isPySpace).reverse

/-- Join a list of strings with a separator (`sep.join(xs)`). -/
def joinSep (sep : Str) : List Str → Str
  | [] => []
  | [x] => x
  | x :: xs => x ++ sep ++ joinSep sep xs

/-! ## Data model

A cell of the tabular dataset.  The engine's rows hold scalars, lists, integers or
missing values (`None`); these are the shapes handled by `format_field_value` in
`src/multipromptify/utils/formatting.py`. -/

inductive PValue where
  | null
  | s (v : Str)
  | lst (v : List Str)
  | i (n : Int)
  deriving DecidableEq, Repr

/-- A dataset row: an ordered mapping from column name to value
(`pandas.Series` as consumed by the engine). -/
abbrev Row := List (Str × PValue)

/-- The column names of a row, in order (`row.index`). -/
def rowKeys (r : Row) : List Str := r.map (·.1)

/-- Column lookup on a row (`row[col]`); `none` when the column is absent. -/
def rowLookup (r : Row) (k : Str) : Option PValue :=
  (r.find? (fun p => p.1 = k)).map (·.2)

/-- A dataset: column names plus rows, each carrying its pandas index label
(`data.iterrows()` yields `(label, row)` pairs and `drop` removes by label). -/
structure DataFrame where
  cols : List Str
  rows : List (Nat × Row)
  deriving DecidableEq, Repr

/-- `format_field_value` from `src/multipromptify/utils/formatting.py`:
`None` becomes the empty string, lists are joined by `", "`, everything else is
`str(...)`. -/
def formatFieldValue : PValue → Str
  | .null => []
  | .s v => v
  | .lst v => joinSep (lit ", ") v
  | .i n => lit (toString n)

/-- The single-quote character, written via its code point. -/
def squote : Char := Char.ofNat 39

/-- Model of Python `str(value)` as used by `engine.py` (`str(row[col])`): note
that unlike `format_field_value` a list renders with brackets and quotes. -/
def pyStr : PValue → Str
  | .null => lit "None"
  | .s v => v
  | .lst v => ['['] ++ joinSep (lit ", ") (v.map (fun x => squote :: x ++ [squote])) ++ [']']
  | .i n => lit (toString n)

/-! ## Gold value extraction (`src/multipromptify/utils/formatting.py`) -/

/-- `GoldFieldExtractionError(gold_field, row, reason)` from
`multipromptify.core.exceptions` (the class body is absent from `src/`; only the
field it is raised with matters here). -/
structure GoldFieldExtractionError where
  goldField : Str
  deriving DecidableEq, Repr

/-- The character literal `".[[]'):"` over which `extract_gold_value` tests
membership (`any(c in gold_field for c in ".[[]'):")`); note `[` occurs twice. -/
def exprDetectChars : Str := ['.', '[', '[', ']', squote, ')', ':']

/-- `True` iff the gold field contains one of the expression-detection characters,
exactly as tested by `extract_gold_value`. -/
def hasExprChar (goldField : Str) : Bool :=
  exprDetectChars.any (fun c => goldField.contains c)

/-- `extract_gold_value(row, gold_field)`.  The Python `eval(gold_field, {}, row)`
call is a parameter `evalPy` (an arbitrary partial evaluation of the expression in
the row's namespace; `none` models any raised exception).  Both the expression
path and the plain-lookup path wrap failures in `GoldFieldExtractionError`. -/
def extract_gold_value (evalPy : Str → Row → Option PValue) (row : Row)
    (goldField : Str) : Except GoldFieldExtractionError PValue :=
  if hasExprChar goldField then
    match evalPy goldField row with
    | some v => .ok v
    | none => .error ⟨goldField⟩
  else
    match rowLookup row goldField with
    | some v => .ok v
    | none => .error ⟨goldField⟩

/-- The claim's reading of `extract_gold_value`, stated with the six claimed
characters spelled out: dispatch to the expression path exactly when the field
contains `.`, `[`, `]`, a single quote, `)` or `:`; never fall back to a direct
column lookup on that path; wrap any failure of either path in
`GoldFieldExtractionError`. -/
def extract_gold_value_claim (evalPy : Str → Row → Option PValue) (row : Row)
    (goldField : Str) : Except GoldFieldExtractionError PValue :=
  if goldField.any (fun c =>
      c = '.' || c = '[' || c = ']' || c = squote || c = ')' || c = ':') then
    match evalPy goldField row with
    | some v => .ok v
    | none => .error ⟨goldField⟩
  else
    match rowLookup row goldField with
    | some v => .ok v
    | none => .error ⟨goldField⟩

/-! ## Template filling (`prompt_builder.py`, `fewshot.py`) -/

/-- `_fill_template_placeholders(template, values)` (identical in
`PromptBuilder.fill_template_placeholders` and `FewShotAugmenter`): for each
`(field, value)` pair in order, if `"{field}"` occurs in the current result,
replace every occurrence by the value. -/
def fillTemplatePlaceholders (template : Str) (values : List (Str × Str)) : Str :=
  if template.isEmpty then []
  else
    values.foldl
      (fun result fv =>
        let placeholder : Str := '{' :: fv.1 ++ ['}']
        if containsSub placeholder result then pyReplace result placeholder fv.2
        else result)
      template

/-- `FewShotHandler._create_main_input`: fill the prompt template with the row
values, then remove every occurrence of the gold placeholder in a single
`str.replace` pass, then strip.  `goldField = none` models a falsy
`gold_config.field`. -/
def createMainInput (instructionVariant : Str) (rowValues : List (Str × Str))
    (goldField : Option Str) : Str :=
  let mainInput := fillTemplatePlaceholders instructionVariant rowValues
  let mainInput :=
    match goldField with
    | some g => if g.isEmpty then mainInput else pyReplace mainInput ('{' :: g ++ ['}']) []
    | none => mainInput
  pyStrip mainInput

/-! ## Few-shot selector (`src/promptsuite/augmentations/structure/fewshot.py`) -/

/-- Errors surfaced by the few-shot machinery: `insufficientData` is
`FewShotDataInsufficientError(requested, available, split)`; `keyError b` models
the pandas `KeyError` raised by indexing a DataFrame with the scalar boolean `b`
(see `filterBySplit`). -/
inductive FewShotError where
  | insufficientData (requested available : Nat) (split : Str)
  | keyError (b : Bool)
  deriving DecidableEq, Repr

/-- The few-shot configuration carried on the template field
(`few_shot_field.few_shot_count / _format / _split`); `none` models Python
`None`. -/
structure FewShotFieldCfg where
  count : Option Nat
  format : Option Str
  split : Option Str
  deriving DecidableEq, Repr

/-- `count = few_shot_field.few_shot_count or 2` — note Python `or` also maps
`0` to the default. -/
def cfgCount (c : FewShotFieldCfg) : Nat :=
  match c.count with
  | none => 2
  | some 0 => 2
  | some n => n

/-- `few_shot_format = few_shot_field.few_shot_format or "shared_ordered_first_n"`. -/
def cfgFormat (c : FewShotFieldCfg) : Str :=
  match c.format with
  | none => lit "shared_ordered_first_n"
  | some f => if f.isEmpty then lit "shared_ordered_first_n" else f

/-- `split = few_shot_field.few_shot_split or "all"`. -/
def cfgSplit (c : FewShotFieldCfg) : Str :=
  match c.split with
  | none => lit "all"
  | some s => if s.isEmpty then lit "all" else s

/-- The split filter of `generate_few_shot_examples_structured` (also
`FewShotHandler._filter_data_by_split`):
`data[data.get('split', 'train') == target]` for `split` in `{"train","test"}`,
else the whole dataset.  When the `split` column exists, `data.get` returns the
column and the comparison is a row mask.  When it does not, `data.get` returns the
scalar default `'train'`, the comparison collapses to the Python boolean
`'train' == target`, and indexing the DataFrame with that scalar boolean raises
`KeyError` — modelled by `FewShotError.keyError`. -/
def filterBySplit (data : DataFrame) (split : Str) :
    Except FewShotError (List (Nat × Row)) :=
  if split = lit "train" then
    if (lit "split") ∈ data.cols then
      .ok (data.rows.filter
        (fun r => decide (rowLookup r.2 (lit "split") = some (.s (lit "train")))))
    else .error (.keyError true)
  else if split = lit "test" then
    if (lit "split") ∈ data.cols then
      .ok (data.rows.filter
        (fun r => decide (rowLookup r.2 (lit "split") = some (.s (lit "test")))))
    else .error (.keyError false)
  else .ok data.rows

/-- Modelled from the spec: a deterministic stand-in for the pseudo-random stream
behind `pandas.DataFrame.sample(random_state=seed)` (pandas is an external
dependency; only determinism and the sampled-without-replacement shape matter to
the engine). -/
def lcgNext (s : Nat) : Nat := (s * 1103515245 + 12345) % 4294967296

/-- Modelled from the spec: `pandas.DataFrame.sample(n=n, random_state=seed)` —
a deterministic sample of `n` distinct positions of the pool, without
replacement.  With `n = pool.length` it reshuffles the whole pool, which also
models `sample(frac=1.0, random_state=seed)`. -/
def sampleRows {α : Type} : Nat → Nat → List α → List α
  | 0, _, _ => []
  | _ + 1, _, [] => []
  | n + 1, seed, x :: xs =>
    let pool := x :: xs
    let i := seed % pool.length
    match pool[i]? with
    | some y => y :: sampleRows n (lcgNext seed) (pool.eraseIdx i)
    | none => []

/-- `available_data.drop(current_row_idx, errors='ignore')`: remove the current
row (by label) from the filtered data. -/
def fewShotPool (filtered : List (Nat × Row)) (currentRowIdx : Nat) :
    List (Nat × Row) :=
  filtered.filter (fun r => decide (r.1 ≠ currentRowIdx))

/-- The pool construction and sampling steps of
`generate_few_shot_examples_structured` (fewshot.py lines 101–138): apply the
split filter, drop the current row by label (`errors='ignore'`), check
sufficiency, then dispatch on the format token.  `orderSeed` / `selectionSeed`
model `identification_data.get('order_seed' / 'selection_seed',
current_row_idx)`. -/
def fewShotSampledRows (cfg : FewShotFieldCfg) (data : DataFrame)
    (currentRowIdx : Nat) (orderSeed selectionSeed : Option Nat) :
    Except FewShotError (List (Nat × Row)) :=
  match filterBySplit data (cfgSplit cfg) with
  | .error e => .error e
  | .ok filtered =>
    let count := cfgCount cfg
    let fmt := cfgFormat cfg
    let pool := fewShotPool filtered currentRowIdx
    if pool.length < count then
      .error (.insufficientData count pool.length (cfgSplit cfg))
    else if fmt = lit "shared_ordered_first_n" then
      .ok (pool.take count)
    else if fmt = lit "shared_ordered_random_n" then
      .ok (sampleRows count 42 pool)
    else if fmt = lit "shared_unordered_random_n" then
      let base := sampleRows count 42 pool
      .ok (sampleRows base.length (orderSeed.getD currentRowIdx) base)
    else if fmt = lit "random_per_row" then
      .ok (sampleRows count (selectionSeed.getD currentRowIdx) pool)
    else
      -- unknown format: a warning is printed, 'shared_ordered_first_n' is used
      .ok (pool.take count)

/-! ## Few-shot example rendering (fewshot.py lines 140–221) -/

/-- Parse a run of decimal digits (`int(...)` on a trimmed numeral). -/
def digitsToNat? : Str → Option Nat
  | [] => none
  | ds =>
    if ds.all (·.isDigit) then
      some (ds.foldl (fun acc c => acc * 10 + (c.toNat - 48)) 0)
    else none

/-- Model of Python `int(value)`: integers pass through, strings parse as an
optionally signed decimal numeral (surrounding whitespace stripped), anything
else raises (`none`). -/
def pyInt : PValue → Option Int
  | .i n => some n
  | .s t =>
    let t := pyStrip t
    match t with
    | '-' :: ds => (digitsToNat? ds).map (fun n => -(n : Int))
    | ds => (digitsToNat? ds).map (fun n => (n : Int))
  | _ => none

/-- Split a string on a separator character (Python `s.split(',')`). -/
def splitOnChar (c : Char) (s : Str) : List Str :=
  s.foldr
    (fun x acc =>
      match acc with
      | [] => if x = c then [[], []] else [[x]]
      | cur :: rest => if x = c then [] :: (cur :: rest) else (x :: cur) :: rest)
    [[]]

/-- The options list derived from an options cell, as in fewshot.py lines
162–168: list values are taken item-wise (stripped), anything else is rendered
with `str` and split on `,` with each item stripped. -/
def optionsListOf : PValue → List Str
  | .lst v => v.map pyStrip
  | v => (splitOnChar ',' (pyStr v)).map pyStrip

/-- Uppercase alphabet used for `ABCD` enumeration (fewshot.py line 175). -/
def upperLetters : List Str := (lit "ABCDEFGHIJKLMNOPQRSTUVWXYZ").map (fun c => [c])

/-- Lowercase alphabet used for `abcd` enumeration (fewshot.py line 179). -/
def lowerLetters : List Str := (lit "abcdefghijklmnopqrstuvwxyz").map (fun c => [c])

/-- The Roman numeral table of fewshot.py line 183 (40 entries, `I` … `XL`). -/
def romanNumerals : List Str :=
  [lit "I", lit "II", lit "III", lit "IV", lit "V", lit "VI", lit "VII",
   lit "VIII", lit "IX", lit "X", lit "XI", lit "XII", lit "XIII", lit "XIV",
   lit "XV", lit "XVI", lit "XVII", lit "XVIII", lit "XIX", lit "XX", lit "XXI",
   lit "XXII", lit "XXIII", lit "XXIV", lit "XXV", lit "XXVI", lit "XXVII",
   lit "XXVIII", lit "XXIX", lit "XXX", lit "XXXI", lit "XXXII", lit "XXXIII",
   lit "XXXIV", lit "XXXV", lit "XXXVI", lit "XXXVII", lit "XXXVIII",
   lit "XXXIX", lit "XL"]

/-- Modelled from the spec: `convert_index_to_value`
(`promptsuite.utils.formatting`, absent from `src/`).  Per §4.4 of the spec, the
few-shot output is the gold value extracted per the GoldConfig; with
`gold_type = "index"` and an options field it is the option at that 0-based
index, otherwise the formatted gold value. -/
def convertIndexToValue (row : Row) (goldField : Str) (goldType : Str)
    (optionsField : Option Str) : Str :=
  if goldType = lit "index" then
    match optionsField with
    | some of =>
      match rowLookup row of, (rowLookup row goldField).bind pyInt with
      | some opts, some idx =>
        if 0 ≤ idx then ((optionsListOf opts).getD idx.toNat []) else []
      | _, _ => []
    | none => formatFieldValue ((rowLookup row goldField).getD .null)
  else
    formatFieldValue ((rowLookup row goldField).getD .null)

/-- Modelled from the spec: `EnumeratorAugmenter.enumerate_field`
(`promptsuite.augmentations.structure.enumerate`, absent from `src/`).  Per §6 of
the spec it renders a list value with the configured marker style, e.g.
`"1. a, 2. b, 3. c"` or `"A. x, B. y"`. -/
def markersFor (enumType : Str) : Nat → Option Str := fun i =>
  if enumType = lit "ABCD" then upperLetters[i]?
  else if enumType = lit "abcd" then lowerLetters[i]?
  else if enumType = lit "roman" then romanNumerals[i]?
  else some (lit (toString (i + 1)))

/-- Modelled from the spec: render a field value in the configured enumeration
style (see `markersFor`). -/
def enumerateField (value : PValue) (enumType : Str) : Str :=
  joinSep (lit ", ")
    ((optionsListOf value).enum.map
      (fun p => ((markersFor enumType p.1).getD []) ++ lit ". " ++ p.2))

/-- The gold-column branch of the example-rendering loop (fewshot.py lines
145–188): the output value is `convert_index_to_value(...)`, overridden by the
enumerated rendering `"<marker>. <option>"` when the gold is index-based and the
options field has an enumeration configuration. -/
def goldOutputValue (exampleRow : Row) (goldField : Str) (goldType : Str)
    (optionsField : Option Str) (enumCfgs : List (Str × Str)) : Str :=
  let base := convertIndexToValue exampleRow goldField goldType optionsField
  match optionsField with
  | some of =>
    if goldType = lit "index" && !of.isEmpty && (enumCfgs.find? (fun p => p.1 = of)).isSome then
      let enumType := ((enumCfgs.find? (fun p => p.1 = of)).map (·.2)).getD (lit "1234")
      match (rowLookup exampleRow goldField).bind pyInt with
      | none => base
      | some gi =>
        match rowLookup exampleRow of with
        | none => base
        | some optionsData =>
          let optionsList := optionsListOf optionsData
          if 0 ≤ gi ∧ gi.toNat < optionsList.length then
            let opt := optionsList.getD gi.toNat []
            if enumType = lit "1234" then
              lit (toString (gi.toNat + 1)) ++ lit ". " ++ pyStrip opt
            else if enumType = lit "ABCD" then
              match upperLetters[gi.toNat]? with
              | some m => m ++ lit ". " ++ pyStrip opt
              | none => base
            else if enumType = lit "abcd" then
              match lowerLetters[gi.toNat]? with
              | some m => m ++ lit ". " ++ pyStrip opt
              | none => base
            else if enumType = lit "roman" then
              match romanNumerals[gi.toNat]? with
              | some m => m ++ lit ". " ++ pyStrip opt
              | none => base
            else base
          else base
    else base
  | none => base

/-- The non-gold branch of the example-rendering loop (fewshot.py lines
189–210): apply the enumeration style when configured for the column, otherwise
`format_field_value`. -/
def inputCellValue (col : Str) (value : PValue) (enumCfgs : List (Str × Str)) : Str :=
  match enumCfgs.find? (fun p => p.1 = col) with
  | some cfg => enumerateField value cfg.2
  | none => formatFieldValue value

/-- Render one sampled row as a few-shot `(input, output)` pair (fewshot.py
lines 141–220).  Returns `none` when the filled input text is empty (such rows
are skipped by the `if input_text:` guard). -/
def renderFewShotExample (promptFormatVariant : Str) (goldField : Option Str)
    (goldType : Str) (optionsField : Option Str) (enumCfgs : List (Str × Str))
    (exampleRow : Row) : Option (Str × Str) :=
  let step := exampleRow.foldl
    (fun (acc : List (Str × Str) × Str) cell =>
      match goldField with
      | some g =>
        if !g.isEmpty && cell.1 = g then
          (acc.1, goldOutputValue exampleRow g goldType optionsField enumCfgs)
        else
          (acc.1 ++ [(cell.1, inputCellValue cell.1 cell.2 enumCfgs)], acc.2)
      | none =>
        (acc.1 ++ [(cell.1, inputCellValue cell.1 cell.2 enumCfgs)], acc.2))
    ([], [])
  let inputValues := step.1
  let outputValue := step.2
  let inputTemplate :=
    match goldField with
    | some g =>
      if g.isEmpty then promptFormatVariant
      else pyStrip (pyReplace promptFormatVariant ('{' :: g ++ ['}']) [])
    | none => promptFormatVariant
  let inputText := fillTemplatePlaceholders inputTemplate inputValues
  if inputText.isEmpty then none else some (inputText, outputValue)

/-- `generate_few_shot_examples_structured`: sample the rows, then render each as
an `(input, output)` pair. -/
def generateFewShotExamples (cfg : FewShotFieldCfg) (promptFormatVariant : Str)
    (data : DataFrame) (currentRowIdx : Nat) (goldField : Option Str)
    (goldType : Str) (optionsField : Option Str) (enumCfgs : List (Str × Str))
    (orderSeed selectionSeed : Option Nat) :
    Except FewShotError (List (Str × Str)) :=
  match fewShotSampledRows cfg data currentRowIdx orderSeed selectionSeed with
  | .error e => .error e
  | .ok rows =>
    .ok (rows.filterMap
      (fun r => renderFewShotExample promptFormatVariant goldField goldType
        optionsField enumCfgs r.2))

/-- `FewShotAugmenter.format_few_shot_as_string`: each example renders as
`input ++ "\n" ++ output`, examples joined by blank lines. -/
def formatFewShotAsString (examples : List (Str × Str)) : Str :=
  if examples.isEmpty then []
  else joinSep (lit "\n\n") (examples.map (fun e => e.1 ++ lit "\n" ++ e.2))

/-- `FewShotHandler._format_final_prompt`: join the few-shot block and the main
input with a blank line, skipping empty parts. -/
def formatFinalPrompt (examples : List (Str × Str)) (mainInput : Str) : Str :=
  let parts : List Str :=
    (if examples.isEmpty then [] else [formatFewShotAsString examples]) ++
      (if mainInput.isEmpty then [] else [mainInput])
  joinSep (lit "\n\n") parts

/-! ## Few-shot configuration validation
(`FewShotHandler.parse_few_shot_config`, few_shot_handler.py lines 87–111) -/

/-- The raw `few_shot` template dictionary (`config.get(...)` with defaults). -/
structure RawFewShotDict where
  count : Option Int
  format : Option Str
  split : Option Str
  deriving DecidableEq, Repr

/-- `FewShotConfig` dataclass of few_shot_handler.py. -/
structure FewShotConfig where
  count : Int
  format : Str
  split : Str
  deriving DecidableEq, Repr

/-- The `ValueError`s raised by `parse_few_shot_config`. -/
inductive FewShotConfigError where
  | countNotPositive (c : Int)
  | badFormat (f : Str)
  | badSplit (s : Str)
  deriving DecidableEq, Repr

/-- `FewShotHandler.parse_few_shot_config`: defaults `count=2`,
`format="rotating"`, `split="all"`; rejects non-positive counts, formats outside
`{"fixed","rotating"}` and splits outside `{"all","train","test"}`. -/
def parse_few_shot_config (cfg : RawFewShotDict) :
    Except FewShotConfigError FewShotConfig :=
  let c := cfg.count.getD 2
  let f := cfg.format.getD (lit "rotating")
  let s := cfg.split.getD (lit "all")
  if c ≤ 0 then .error (.countNotPositive c)
  else if ¬(f = lit "fixed" ∨ f = lit "rotating") then .error (.badFormat f)
  else if ¬(s = lit "all" ∨ s = lit "train" ∨ s = lit "test") then
    .error (.badSplit s)
  else .ok ⟨c, f, s⟩

/-! ## Field expander
(`VariationGenerator.generate_field_variations`, variation_generator.py lines
180–298, and the parallel `MultiPromptify._generate_field_variations`,
engine.py lines 393–500) -/

/-- The gold configuration (`GoldFieldConfig.from_template`): a field name (or
`none`), a type (`"value"` or `"index"`) and an optional options field. -/
structure GoldConfig where
  field : Option Str
  type : Str
  optionsField : Option Str
  deriving DecidableEq, Repr

/-- `VariationConfig`: the per-field budget and the global budget. -/
structure VariationConfig where
  variationsPerField : Nat
  maxVariations : Nat
  deriving DecidableEq, Repr

/-- A gold-update value: the original gold string or a new 0-based index. -/
inductive GoldVal where
  | s (v : Str)
  | i (n : Int)
  deriving DecidableEq, Repr

/-- `FieldVariation`: an augmented field value with an optional single-entry
gold-update mapping `{field: value}`. -/
structure FieldVariation where
  data : Str
  goldUpdate : Option (Str × GoldVal)
  deriving DecidableEq, Repr

/-- `FieldAugmentationData` (from `multipromptify.core.models`, whose module body
is absent from `src/`; the fields are exactly the keyword arguments it is
constructed with in variation_generator.py lines 162–169). -/
structure FieldAugmentationData where
  fieldName : Str
  fieldValue : Str
  variationTypes : List Str
  variationConfig : VariationConfig
  rowData : Row
  goldConfig : GoldConfig

/-- Modelled from the spec: `FieldAugmentationData.has_gold_field`
(`multipromptify.core.models`, absent from `src/`).  The warning at its call
site reads "Shuffle augmenter requires gold field '<field>' to be present in
data", so the check is that a gold field is configured and present in the
row. -/
def FieldAugmentationData.hasGoldField (fd : FieldAugmentationData) : Bool :=
  match fd.goldConfig.field with
  | none => false
  | some g => !g.isEmpty && decide (g ∈ rowKeys fd.rowData)

/-- The `identification_data` dictionary passed to the shuffle augmenter. -/
structure IdentData where
  goldField : Str
  goldValue : Str
  deriving DecidableEq, Repr

/-- One augmenter return item.  The augmenter classes themselves are absent from
`src/`; the expander only distinguishes plain strings, dictionaries carrying
both `shuffled_data` and `new_gold_index`, and other dictionaries (from which a
text is extracted by key priority — collapsed here into the payload). -/
inductive AugResult where
  | str (t : Str)
  | shuffleDict (shuffledData : Str) (newGoldIndex : Int)
  | otherDict (extractedText : Str)
  deriving DecidableEq, Repr

/-- The text extracted from an augmenter result by the regular (non-shuffle)
branch: a `shuffled_data` key wins, then `data`/`text`, else `str(var)` —
collapsed into the constructor payloads. -/
def extractText : AugResult → Str
  | .str t => t
  | .shuffleDict d _ => d
  | .otherDict e => e

/-- The type of the augmenter dispatch
(`AugmenterFactory.create(...).augment(...)`, absent from `src/`): variation
type, field value and optional identification data to a list of results.  An
augmenter that raises contributes nothing (the enclosing `try/except` prints a
warning and continues), which the quantification over arbitrary `Augment`
functions subsumes via the empty list. -/
def Augment : Type := Str → Str → Option IdentData → List AugResult

/-- The shuffle branch of `VariationGenerator.generate_field_variations`
(lines 210–228): build `identification_data` from the gold config, using
`extract_gold_value` and, for index gold, `int(...)`; any failure skips the
augmenter (`continue`). -/
def shuffleIdentDataVG (evalPy : Str → Row → Option PValue)
    (fd : FieldAugmentationData) : Option IdentData :=
  match fd.goldConfig.field with
  | none => none
  | some g =>
    if fd.goldConfig.type = lit "index" then
      match extract_gold_value evalPy fd.rowData g with
      | .error _ => none
      | .ok v =>
        match pyInt v with
        | none => none
        | some gi => some ⟨g, lit (toString gi)⟩
    else
      match extract_gold_value evalPy fd.rowData g with
      | .error _ => none
      | .ok v => some ⟨g, pyStr v⟩

/-- The shuffle branch of `MultiPromptify._generate_field_variations`
(engine.py lines 421–439): same as `shuffleIdentDataVG` but with direct row
indexing instead of `extract_gold_value`. -/
def shuffleIdentDataEngine (fd : FieldAugmentationData) : Option IdentData :=
  match fd.goldConfig.field with
  | none => none
  | some g =>
    if fd.goldConfig.type = lit "index" then
      match (rowLookup fd.rowData g).bind pyInt with
      | none => none
      | some gi => some ⟨g, lit (toString gi)⟩
    else
      match rowLookup fd.rowData g with
      | some v => some ⟨g, pyStr v⟩
      | none => none

/-- Process one variation type of the expander loop: the shuffle branch skips
when the gold field is missing (warning + `continue` in the source) and accepts
only `shuffled_data`/`new_gold_index` dictionaries, pairing each with a gold
update; the regular branch extracts a text from every result.  New variations
are appended only if not already present (`if variation_data not in
all_variations`). -/
def stepVariationType (augment : Augment)
    (identBuilder : FieldAugmentationData → Option IdentData)
    (fd : FieldAugmentationData) (acc : List FieldVariation) (vt : Str) :
    List FieldVariation :=
  if vt = lit "shuffle" then
    if !fd.hasGoldField then acc
    else
      match identBuilder fd, fd.goldConfig.field with
      | some ident, some g =>
        (augment vt fd.fieldValue (some ident)).foldl
          (fun acc var =>
            match var with
            | .shuffleDict d idx =>
              let fv : FieldVariation := ⟨d, some (g, .i idx)⟩
              if acc.contains fv then acc else acc ++ [fv]
            | _ => acc)
          acc
      | _, _ => acc
  else
    (augment vt fd.fieldValue none).foldl
      (fun acc var =>
        let fv : FieldVariation := ⟨extractText var, none⟩
        if acc.contains fv then acc else acc ++ [fv])
      acc

/-- The key used for final deduplication: `(var.data, str(var.gold_update))`;
on this representation `str` is injective, so the pair itself serves. -/
def variationKey (v : FieldVariation) : Str × Option (Str × GoldVal) :=
  (v.data, v.goldUpdate)

/-- Worker for `dedupVariations`: keep a variation unless its key is in the
`seen` set. -/
def dedupVariationsGo (seen : List (Str × Option (Str × GoldVal))) :
    List FieldVariation → List FieldVariation
  | [] => []
  | v :: rest =>
    if seen.contains (variationKey v) then dedupVariationsGo seen rest
    else v :: dedupVariationsGo (seen ++ [variationKey v]) rest

/-- "Remove duplicates while preserving order": keep the first occurrence of
each `variationKey` (the `seen`-set loop of variation_generator.py lines
290–296). -/
def dedupVariations (l : List FieldVariation) : List FieldVariation :=
  dedupVariationsGo [] l

/-- The initial entry of the variation-generator expander (lines 186–193): the
formatted original value, with an identity gold update when this field is the
gold field. -/
def originalVariationVG (fd : FieldAugmentationData) : FieldVariation :=
  let originalFormatted := formatFieldValue (.s fd.fieldValue)
  match fd.goldConfig.field with
  | some g =>
    if g = fd.fieldName then ⟨originalFormatted, some (fd.fieldName, .s originalFormatted)⟩
    else ⟨originalFormatted, none⟩
  | none => ⟨originalFormatted, none⟩

/-- The accumulation loop of `VariationGenerator.generate_field_variations`
before deduplication. -/
def accumulateFieldVariationsVG (augment : Augment)
    (evalPy : Str → Row → Option PValue) (fd : FieldAugmentationData) :
    List FieldVariation :=
  fd.variationTypes.foldl
    (stepVariationType augment (shuffleIdentDataVG evalPy) fd)
    [originalVariationVG fd]

/-- `VariationGenerator.generate_field_variations`: accumulate, deduplicate
preserving order, truncate to `variations_per_field`. -/
def generateFieldVariationsVG (augment : Augment)
    (evalPy : Str → Row → Option PValue) (fd : FieldAugmentationData) :
    List FieldVariation :=
  (dedupVariations (accumulateFieldVariationsVG augment evalPy fd)).take
    fd.variationConfig.variationsPerField

/-- The accumulation loop of `MultiPromptify._generate_field_variations`
(engine.py): starts from the raw original with no gold update. -/
def accumulateFieldVariationsEngine (augment : Augment)
    (fd : FieldAugmentationData) : List FieldVariation :=
  fd.variationTypes.foldl
    (stepVariationType augment shuffleIdentDataEngine fd)
    [⟨fd.fieldValue, none⟩]

/-- `MultiPromptify._generate_field_variations`: accumulate, deduplicate,
truncate to `variations_per_field + 1`. -/
def generateFieldVariationsEngine (augment : Augment)
    (fd : FieldAugmentationData) : List FieldVariation :=
  (dedupVariations (accumulateFieldVariationsEngine augment fd)).take
    (fd.variationConfig.variationsPerField + 1)

/-! ## Engine driver and row combinator (`engine.py`) -/

/-- Assoc-list lookup (Python `dict.get`). -/
def assocLookup {β : Type} (l : List (Str × β)) (k : Str) : Option β :=
  (l.find? (fun p => p.1 = k)).map (·.2)

/-- Assoc-list update (Python `dict.update` with a single-entry dict):
overwrite the existing entry or append. -/
def dictUpdate (l : List (Str × GoldVal)) (k : Str) (v : GoldVal) :
    List (Str × GoldVal) :=
  if (assocLookup l k).isSome then
    l.map (fun p => if p.1 = k then (k, v) else p)
  else l ++ [(k, v)]

/-- First-occurrence deduplication on strings ("remove duplicates while
preserving order", engine.py lines 204–210). -/
def dedupStrs (l : List Str) : List Str :=
  (l.foldl
    (fun (acc : List Str × List Str) v =>
      if acc.2.contains v then acc else (acc.1 ++ [v], acc.2 ++ [v]))
    ([], [])).1

/-- `MultiPromptify._generate_instruction_variations` (engine.py lines
152–216): run each configured augmenter on the instruction template, keep at
most `variations_per_field` strings from each, deduplicate, make sure the
original template is first, truncate to `variations_per_field + 1`. -/
def generateInstructionVariations (augment : Augment)
    (instructionTemplate : Str) (variationFields : List (Str × List Str))
    (cfg : VariationConfig) : List Str :=
  match assocLookup variationFields (lit "instruction") with
  | none => [instructionTemplate]
  | some [] => [instructionTemplate]
  | some types =>
    let all := types.foldl
      (fun acc vt =>
        acc ++ ((augment vt instructionTemplate none).map extractText).take
          cfg.variationsPerField)
      []
    let unique := dedupStrs all
    let unique :=
      if unique.contains instructionTemplate then unique
      else instructionTemplate :: unique
    unique.take (cfg.variationsPerField + 1)

/-- `MultiPromptify._generate_all_field_variations` (engine.py lines 336–391):
an `instruction` entry first, then one entry per configured field — the
expander's output when the field is present and not NA, else the empty
singleton. -/
def generateAllFieldVariations (augment : Augment)
    (instructionTemplate : Str) (variationFields : List (Str × List Str))
    (row : Row) (cfg : VariationConfig) (gold : GoldConfig) :
    List (Str × List FieldVariation) :=
  let instructionEntry : Str × List FieldVariation :=
    match assocLookup variationFields (lit "instruction") with
    | some (_ :: _) =>
      (lit "instruction",
        (generateInstructionVariations augment instructionTemplate
          variationFields cfg).map (fun v => ⟨v, none⟩))
    | _ => (lit "instruction", [⟨instructionTemplate, none⟩])
  let fieldEntries := variationFields.filterMap
    (fun fv =>
      if fv.1 = lit "instruction" then none
      else
        match rowLookup row fv.1 with
        | some v =>
          if v = .null then some (fv.1, ([⟨[], none⟩] : List FieldVariation))
          else
            some (fv.1,
              generateFieldVariationsEngine augment
                ⟨fv.1, pyStr v, fv.2, cfg, row, gold⟩)
        | none => some (fv.1, ([⟨[], none⟩] : List FieldVariation)))
  instructionEntry :: fieldEntries

/-- `itertools.product` over a list of lists, in the source's combination order
(rightmost factor varies fastest). -/
def productLists {α : Type} : List (List α) → List (List α)
  | [] => [[]]
  | l :: ls => l.flatMap (fun x => (productLists ls).map (x :: ·))

/-- One emitted variation (engine.py lines 585–593).  The echoed
`template_config` input is omitted from the model: it is a verbatim copy of an
engine argument. -/
structure GeneratedVariation where
  prompt : Str
  conversation : List (Str × Str)
  originalRowIndex : Nat
  variationCount : Nat
  fieldValues : List (Str × Str)
  goldUpdates : Option (List (Str × GoldVal))
  deriving DecidableEq, Repr

/-- The per-row inputs of `_create_row_variations` (the `VariationContext`
model object, whose module is absent from `src/`; fields as constructed at
engine.py lines 119–127). -/
structure VariationContext where
  rowData : Row
  rowIndex : Nat
  fieldVariations : List (Str × List FieldVariation)
  goldConfig : GoldConfig
  variationConfig : VariationConfig
  data : DataFrame

/-- A truthy gold field (`if variation_context.gold_config.field:`). -/
def goldFieldTruthy (g : GoldConfig) : Option Str :=
  match g.field with
  | some f => if f.isEmpty then none else some f
  | none => none

/-- The row-values / gold-updates accumulation of `_create_row_variations`
(engine.py lines 519–540): for each non-NA column, a varying field contributes
its variant value and gold update, the gold column is skipped, and every other
column contributes `str(row[col])`. -/
def extractRowValuesAndUpdates (ctx : VariationContext)
    (fieldValues : List (Str × FieldVariation)) :
    List (Str × Str) × List (Str × GoldVal) :=
  ctx.rowData.foldl
    (fun (acc : List (Str × Str) × List (Str × GoldVal)) cell =>
      if cell.2 = .null then acc
      else
        match assocLookup fieldValues cell.1 with
        | some fv =>
          (acc.1 ++ [(cell.1, fv.data)],
            match fv.goldUpdate with
            | some (k, v) => dictUpdate acc.2 k v
            | none => acc.2)
        | none =>
          match goldFieldTruthy ctx.goldConfig with
          | some g =>
            if cell.1 = g then acc
            else (acc.1 ++ [(cell.1, pyStr cell.2)], acc.2)
          | none => (acc.1 ++ [(cell.1, pyStr cell.2)], acc.2))
    ([], [])

/-- Build one variation from one combination (engine.py lines 512–593).  The
few-shot augmenter call propagates `FewShotDataInsufficientError` (there is no
`try/except` at this call site). -/
def buildSingleVariation (ctx : VariationContext)
    (fewShot : Option FewShotFieldCfg) (varyingFields : List Str)
    (combo : List FieldVariation) (variationCount : Nat) :
    Except FewShotError GeneratedVariation :=
  let fieldValues := varyingFields.zip combo
  let instructionVariant :=
    match assocLookup fieldValues (lit "instruction") with
    | some fv => fv.data
    | none =>
      match assocLookup ctx.fieldVariations (lit "instruction") with
      | some (fv :: _) => fv.data
      | _ => []
  let rvu := extractRowValuesAndUpdates ctx fieldValues
  match (match fewShot with
    | some fcfg =>
      generateFewShotExamples fcfg instructionVariant ctx.data ctx.rowIndex
        ctx.goldConfig.field ctx.goldConfig.type ctx.goldConfig.optionsField []
        none none
    | none => .ok []) with
  | .error e => .error e
  | .ok fewShotExamples =>
    let mainQuestion :=
      createMainInput instructionVariant rvu.1 (goldFieldTruthy ctx.goldConfig)
    let conversation :=
      (fewShotExamples.flatMap
        (fun e => [(lit "user", e.1), (lit "assistant", e.2)])) ++
        (if mainQuestion.isEmpty then [] else [(lit "user", mainQuestion)])
    .ok
      { prompt := formatFinalPrompt fewShotExamples mainQuestion
        conversation := conversation
        originalRowIndex := ctx.rowIndex
        variationCount := variationCount
        fieldValues := fieldValues.map (fun p => (p.1, p.2.data))
        goldUpdates := if rvu.2.isEmpty then none else some rvu.2 }

/-- The combination loop of `_create_row_variations`, stopping at the engine
budget (`if len(variations) >= self.max_variations: break`). -/
def createRowVariationsGo (ctx : VariationContext)
    (fewShot : Option FewShotFieldCfg) (varyingFields : List Str)
    (maxVariations : Nat) :
    List (List FieldVariation) → List GeneratedVariation →
      Except FewShotError (List GeneratedVariation)
  | [], acc => .ok acc
  | combo :: rest, acc =>
    if maxVariations ≤ acc.length then .ok acc
    else
      match buildSingleVariation ctx fewShot varyingFields combo
        (acc.length + 1) with
      | .error e => .error e
      | .ok v =>
        createRowVariationsGo ctx fewShot varyingFields maxVariations rest
          (acc ++ [v])

/-- `MultiPromptify._create_row_variations` (engine.py lines 502–594). -/
def createRowVariations (ctx : VariationContext)
    (fewShot : Option FewShotFieldCfg) (maxVariations : Nat) :
    Except FewShotError (List GeneratedVariation) :=
  let varyingFields := ctx.fieldVariations.map (·.1)
  if varyingFields.isEmpty then .ok []
  else
    createRowVariationsGo ctx fewShot varyingFields maxVariations
      (productLists (ctx.fieldVariations.map (·.2))) []

/-- Errors surfaced by `generate_variations` (all raised as `ValueError` /
`FewShotDataInsufficientError` in the source). -/
inductive EngineError where
  | instructionRequired
  | goldRequiredWithFewShot
  | fewShot (e : FewShotError)
  deriving DecidableEq, Repr

/-- The row loop of `generate_variations` (engine.py lines 106–139): stop once
the accumulated count reaches `max_variations`, and finally truncate. -/
def generateVariationsGo (augment : Augment) (instructionTemplate : Str)
    (variationFields : List (Str × List Str)) (gold : GoldConfig)
    (fewShot : Option FewShotFieldCfg) (data : DataFrame)
    (cfg : VariationConfig) :
    List (Nat × Row) → List GeneratedVariation →
      Except FewShotError (List GeneratedVariation)
  | [], acc => .ok (acc.take cfg.maxVariations)
  | (idx, row) :: rest, acc =>
    if cfg.maxVariations ≤ acc.length then .ok (acc.take cfg.maxVariations)
    else
      let fvs := generateAllFieldVariations augment instructionTemplate
        variationFields row cfg gold
      match createRowVariations ⟨row, idx, fvs, gold, cfg, data⟩ fewShot
        cfg.maxVariations with
      | .error e => .error e
      | .ok rowVars =>
        generateVariationsGo augment instructionTemplate variationFields gold
          fewShot data cfg rest (acc ++ rowVars)

/-- `MultiPromptify.generate_variations` (engine.py lines 53–139), taken after
template parsing: the explicit preconditions of lines 96–104 (`ValueError` when
no instruction template is configured, `ValueError` when few-shot is configured
without a gold field), then the row loop.  Randomness enters only through the
deterministic `augment` dispatch (which includes any ambient RNG state in its
arguments) and the fixed seeds inside the few-shot selector, so the whole
driver is a function of its arguments. -/
def generate_variations (augment : Augment) (instructionTemplate : Str)
    (variationFields : List (Str × List Str)) (gold : GoldConfig)
    (fewShot : Option FewShotFieldCfg) (data : DataFrame)
    (cfg : VariationConfig) : Except EngineError (List GeneratedVariation) :=
  if instructionTemplate.isEmpty then .error .instructionRequired
  else if fewShot.isSome && (goldFieldTruthy gold).isNone then
    .error .goldRequiredWithFewShot
  else
    match generateVariationsGo augment instructionTemplate variationFields gold
      fewShot data cfg data.rows [] with
    | .ok l => .ok l
    | .error e => .error (.fewShot e)

/-! ## Multiple-choice augmenter (`src/augmentations/multiple_choice_augmenter.py`)

This augmenter draws from Python's *global* `random` module; the interpreter's
global RNG state is modelled as an explicit `Nat` threaded through the calls
(the `lcgNext` stream standing in for the Mersenne Twister). -/

/-- Fisher–Yates-style worker for `pyShuffle`, threading the RNG state. -/
def pyShuffleGo {α : Type} : Nat → Nat → List α → List α × Nat
  | 0, seed, _ => ([], seed)
  | _ + 1, seed, [] => ([], seed)
  | n + 1, seed, x :: xs =>
    let pool := x :: xs
    let i := seed % pool.length
    match pool[i]? with
    | some y =>
      let r := pyShuffleGo n (lcgNext seed) (pool.eraseIdx i)
      (y :: r.1, r.2)
    | none => ([], seed)

/-- Modelled from the spec: Python `random.shuffle(l)` on the global RNG —
a deterministic permutation of `l` driven by, and advancing, the RNG state. -/
def pyShuffle {α : Type} (seed : Nat) (l : List α) : List α × Nat :=
  pyShuffleGo l.length seed l

/-- `MultipleChoiceConstants.ENUMERATION_STYLES`
(`src/utils/constants.py` lines 27–34). -/
def enumerationStyles : List (List Str) :=
  [[lit "A", lit "B", lit "C", lit "D"],
   [lit "a", lit "b", lit "c", lit "d"],
   [lit "1", lit "2", lit "3", lit "4"],
   [lit "A)", lit "B)", lit "C)", lit "D)"],
   [lit "a)", lit "b)", lit "c)", lit "d)"],
   [lit "1)", lit "2)", lit "3)", lit "4)"]]

/-- The `identification_data` consumed by the multiple-choice augmenter. -/
structure MCIdent where
  question : Str
  options : List Str
  markers : List Str
  deriving DecidableEq, Repr

/-- Find the current enumeration style (multiple_choice_augmenter.py lines
45–52): the first style containing the first current marker, defaulting to 0. -/
def mcCurrentStyleIndex (markers : List Str) : Nat :=
  match markers.head? with
  | none => 0
  | some m =>
    match enumerationStyles.findIdx? (fun style => style.contains m) with
    | some i => i
    | none => 0

/-- Build one re-enumerated variation (lines 60–65): question, blank line, and
each option on its own line behind the style's marker (options beyond the style
length are dropped), stripped. -/
def mcStyleVariation (question : Str) (options : List Str) (style : List Str) :
    Str :=
  pyStrip
    (question ++ lit "\n\n" ++
      (options.enum.foldl
        (fun acc p =>
          match style[p.1]? with
          | some m => acc ++ m ++ [' '] ++ p.2 ++ lit "\n"
          | none => acc)
        []))

/-- Build one reordered variation (lines 78–84): marker j-th of the current
style followed by the option at the shuffled index. -/
def mcOrderVariation (question : Str) (options : List Str) (style : List Str)
    (shuffledIndices : List Nat) : Str :=
  pyStrip
    (question ++ lit "\n\n" ++
      (shuffledIndices.enum.foldl
        (fun acc p =>
          match style[p.1]?, options[p.2]? with
          | some m, some opt => acc ++ m ++ [' '] ++ opt ++ lit "\n"
          | _, _ => acc)
        []))

/-- The order-variation loop (lines 69–84): `min(2, n_augments)` rounds, each
shuffling `range(len(options))` on the global RNG, skipping identity orders. -/
def mcOrderLoop (question : Str) (options : List Str) (style : List Str) :
    Nat → Nat → List Str × Nat
  | 0, seed => ([], seed)
  | k + 1, seed =>
    let sh := pyShuffle seed (List.range options.length)
    let rest := mcOrderLoop question options style k sh.2
    if sh.1 = List.range options.length then rest
    else (mcOrderVariation question options style sh.1 :: rest.1, rest.2)

/-- `MultipleChoiceAugmenter.augment` (lines 27–88): original prompt first,
then re-enumeration variations, then up to two reorder variations, first-
occurrence deduplication (`dict.fromkeys`), truncation to `n_augments`.  The
returned `Nat` is the advanced global RNG state. -/
def multipleChoiceAugment (nAugments : Nat) (prompt : Str)
    (ident : Option MCIdent) (seed : Nat) : List Str × Nat :=
  match ident with
  | none => ([prompt], seed)
  | some d =>
    if d.question.isEmpty || d.options.isEmpty || d.markers.isEmpty then
      ([prompt], seed)
    else
      let csi := mcCurrentStyleIndex d.markers
      let styleVars := (enumerationStyles.enum.filter (fun p => p.1 ≠ csi)).map
        (fun p => mcStyleVariation d.question d.options p.2)
      let currentStyle := (enumerationStyles[csi]?).getD []
      let ov := mcOrderLoop d.question d.options currentStyle
        (min 2 nAugments) seed
      ((dedupStrs (prompt :: styleVars ++ ov.1)).take nAugments, ov.2)

/-! ## Helper lemmas -/

theorem mem_of_isPrefixOf {p s : Str} (h : p.isPrefixOf s = true) {c : Char}
    (hc : c ∈ p) : c ∈ s := by
  induction p generalizing s with
  | nil => cases hc
  | cons a p ih =>
    cases s with
    | nil => simp [List.isPrefixOf] at h
    | cons b s =>
      simp only [List.isPrefixOf, Bool.and_eq_true, beq_iff_eq] at h
      cases hc with
      | head => simp [h.1]
      | tail _ hc => exact List.mem_cons_of_mem _ (ih h.2 hc)

theorem mem_of_containsSub {p s : Str} (h : containsSub p s = true) {c : Char}
    (hc : c ∈ p) : c ∈ s := by
  induction s with
  | nil => exact mem_of_isPrefixOf h hc
  | cons b s ih =>
    simp only [containsSub, Bool.or_eq_true] at h
    rcases h with h | h
    · exact mem_of_isPrefixOf h hc
    · exact List.mem_cons_of_mem _ (ih h)

theorem mem_pyStrip {s : Str} {c : Char} (h : c ∈ pyStrip s) : c ∈ s := by
  unfold pyStrip at h
  rw [List.mem_reverse] at h
  have h1 := List.dropWhile_sublist (l := (s.dropWhile isPySpace).reverse)
    (p := isPySpace)
  have h2 := (h1.subset h)
  rw [List.mem_reverse] at h2
  exact (List.dropWhile_sublist (l := s) (p := isPySpace)).subset h2

theorem mem_joinSep {sep : Str} {parts : List Str} {c : Char}
    (h : c ∈ joinSep sep parts) : c ∈ sep ∨ ∃ p ∈ parts, c ∈ p := by
  induction parts with
  | nil => cases h
  | cons x xs ih =>
    cases xs with
    | nil =>
      right
      exact ⟨x, List.mem_cons_self _ _, h⟩
    | cons y ys =>
      simp only [joinSep, List.append_assoc, List.mem_append] at h
      rcases h with h | h | h
      · right; exact ⟨x, List.mem_cons_self _ _, h⟩
      · exact Or.inl h
      · rcases ih h with h | ⟨p, hp, hcp⟩
        · exact Or.inl h
        · exact Or.inr ⟨p, List.mem_cons_of_mem _ hp, hcp⟩

/-! ## C10 — gold extraction dispatch -/

/-- **C10.** For every gold-field string containing one of `.`, `[`, `]`, a
single quote, `)` or `:`, `extract_gold_value` evaluates the string as an
expression over the row (never a plain column lookup), and any failure of
either path surfaces as `GoldFieldExtractionError`: the function agrees
everywhere with the claim's reading `extract_gold_value_claim`. -/
theorem extract_gold_value_matches_claim :
    ∀ (evalPy : Str → Row → Option PValue) (row : Row) (goldField : Str),
      extract_gold_value evalPy row goldField =
        extract_gold_value_claim evalPy row goldField := by
  intro evalPy row gf
  unfold extract_gold_value extract_gold_value_claim
  have h : hasExprChar gf =
      gf.any (fun c =>
        c = '.' || c = '[' || c = ']' || c = squote || c = ')' || c = ':') := by
    have hiff : hasExprChar gf = true ↔
        gf.any (fun c =>
          c = '.' || c = '[' || c = ']' || c = squote || c = ')' ||
            c = ':') = true := by
      unfold hasExprChar exprDetectChars
      simp only [List.any_eq_true, List.elem_iff, decide_eq_true_eq,
        Bool.or_eq_true]
      constructor
      · rintro ⟨c, hc, hmem⟩
        refine ⟨c, hmem, ?_⟩
        simp only [List.mem_cons, List.not_mem_nil, or_false] at hc
        rcases hc with rfl | rfl | rfl | rfl | rfl | rfl | rfl <;> simp
      · rintro ⟨c, hmem, hc⟩
        refine ⟨c, ?_, hmem⟩
        rcases hc with ((((h | h) | h) | h) | h) | h <;>
          · subst h; simp
    cases h1 : hasExprChar gf <;> cases h2 : gf.any _ <;>
      simp_all
  rw [h]

/-! ## C9 — few-shot configuration validation -/

/-- The four few-shot format tokens enumerated by the specification (§6,
"Few-shot format tokens") and dispatched on by
`generate_few_shot_examples_structured`. -/
def specFewShotFormatTokens : List Str :=
  [lit "shared_ordered_first_n", lit "shared_ordered_random_n",
   lit "shared_unordered_random_n", lit "random_per_row"]

/-- **C9 counterexample.** The configuration
`{count: 2, format: "shared_ordered_first_n", split: "all"}` satisfies all
three constraints of the claim — `count ≥ 1`, a format from the closed
enumeration of few-shot format tokens, and a split in `{"all","train","test"}`
— yet `parse_few_shot_config` rejects it, because the validator only accepts
the legacy formats `"fixed"`/`"rotating"`. -/
theorem parse_few_shot_config_rejects_spec_token :
    (1 : Int) ≤ 2 ∧
      (lit "shared_ordered_first_n") ∈ specFewShotFormatTokens ∧
      (lit "all") ∈ [lit "all", lit "train", lit "test"] ∧
      parse_few_shot_config
          ⟨some 2, some (lit "shared_ordered_first_n"), some (lit "all")⟩ =
        .error (.badFormat (lit "shared_ordered_first_n")) := by
  refine ⟨by norm_num, by decide, by decide, by decide⟩

/-- **C9 (amended).** `parse_few_shot_config` accepts a specification exactly
when `count ≥ 1`, `format ∈ {"fixed","rotating"}` (the validator's closed
enumeration — not the four spec-level few-shot format tokens) and
`split ∈ {"all","train","test"}`; on acceptance it returns the (defaulted)
configuration unchanged. -/
theorem parse_few_shot_config_validation (cfg : RawFewShotDict) :
    ((parse_few_shot_config cfg).isOk = true ↔
      (1 ≤ cfg.count.getD 2 ∧
        (cfg.format.getD (lit "rotating") = lit "fixed" ∨
          cfg.format.getD (lit "rotating") = lit "rotating") ∧
        (cfg.split.getD (lit "all") = lit "all" ∨
          cfg.split.getD (lit "all") = lit "train" ∨
          cfg.split.getD (lit "all") = lit "test"))) ∧
    ((parse_few_shot_config cfg).isOk = true →
      parse_few_shot_config cfg =
        .ok ⟨cfg.count.getD 2, cfg.format.getD (lit "rotating"),
          cfg.split.getD (lit "all")⟩) := by
  unfold parse_few_shot_config
  dsimp only
  constructor
  · constructor
    · intro h
      split at h
      · simp [Except.isOk, Except.toBool] at h
      · split at h
        · simp [Except.isOk, Except.toBool] at h
        · split at h
          · simp [Except.isOk, Except.toBool] at h
          · refine ⟨by omega, by tauto, by tauto⟩
    · rintro ⟨h1, h2, h3⟩
      rw [if_neg (by omega), if_neg (by tauto), if_neg (by tauto)]
      rfl
  · intro h
    split at h
    · simp [Except.isOk, Except.toBool] at h
    · split at h
      · simp [Except.isOk, Except.toBool] at h
      · split at h
        · simp [Except.isOk, Except.toBool] at h
        · rw [if_neg (by assumption), if_neg (by assumption),
            if_neg (by assumption)]

/-- **C9 witness.** A configuration satisfying the amended constraints is
accepted. -/
theorem parse_few_shot_config_validation_witness :
    (parse_few_shot_config ⟨some 3, some (lit "fixed"), some (lit "train")⟩).isOk
      = true :=
  (parse_few_shot_config_validation
    ⟨some 3, some (lit "fixed"), some (lit "train")⟩).1.mpr
    ⟨by norm_num, by decide, by decide⟩

/-! ## C3, C4, C5 — few-shot selector properties -/

theorem mem_sampleRows {α : Type} {y : α} (n seed : Nat) (l : List α)
    (h : y ∈ sampleRows n seed l) : y ∈ l := by
  induction n generalizing seed l with
  | zero => simp [sampleRows] at h
  | succ n ih =>
    cases l with
    | nil => simp [sampleRows] at h
    | cons x xs =>
      rw [sampleRows] at h
      cases hg : (x :: xs)[seed % (xs.length + 1)]? with
      | none => simp only [List.length_cons, hg] at h; simp at h
      | some z =>
        simp only [List.length_cons, hg] at h
        cases h with
        | head => exact List.getElem?_mem hg
        | tail _ h =>
          exact (List.eraseIdx_sublist _ _).subset (ih _ _ h)

theorem length_sampleRows {α : Type} (n seed : Nat) (l : List α)
    (hn : n ≤ l.length) : (sampleRows n seed l).length = n := by
  induction n generalizing seed l with
  | zero => simp [sampleRows]
  | succ n ih =>
    cases l with
    | nil => simp at hn
    | cons x xs =>
      have hi : seed % (xs.length + 1) < (x :: xs).length := by
        simp only [List.length_cons]
        exact Nat.mod_lt _ (Nat.succ_pos _)
      rw [sampleRows]
      simp only [List.length_cons]
      rw [List.getElem?_eq_getElem hi]
      simp only [List.length_cons]
      rw [ih _ _ (by
        rw [List.length_eraseIdx_of_lt hi]
        simp only [List.length_cons] at hn ⊢
        omega)]

theorem ne_of_mem_fewShotPool {filtered : List (Nat × Row)} {idx : Nat}
    {r : Nat × Row} (h : r ∈ fewShotPool filtered idx) : r.1 ≠ idx := by
  have := List.of_mem_filter h
  simpa using this

/-- **C3.** Whenever the few-shot selector succeeds, none of the selected
example rows carries the current row's index: the current row is excluded from
the sampled pool under every format token. -/
theorem few_shot_excludes_current_row (cfg : FewShotFieldCfg)
    (data : DataFrame) (idx : Nat) (os ss : Option Nat)
    (rows : List (Nat × Row))
    (h : fewShotSampledRows cfg data idx os ss = .ok rows) :
    ∀ r ∈ rows, r.1 ≠ idx := by
  unfold fewShotSampledRows at h
  cases hf : filterBySplit data (cfgSplit cfg) with
  | error e => rw [hf] at h; simp at h
  | ok filtered =>
    rw [hf] at h
    dsimp only at h
    intro r hr
    split at h
    · simp at h
    · split at h
      · rw [Except.ok.injEq] at h
        subst h
        exact ne_of_mem_fewShotPool (List.take_subset _ _ hr)
      · split at h
        · rw [Except.ok.injEq] at h
          subst h
          exact ne_of_mem_fewShotPool (mem_sampleRows _ _ _ hr)
        · split at h
          · rw [Except.ok.injEq] at h
            subst h
            exact ne_of_mem_fewShotPool
              (mem_sampleRows _ _ _ (mem_sampleRows _ _ _ hr))
          · split at h
            · rw [Except.ok.injEq] at h
              subst h
              exact ne_of_mem_fewShotPool (mem_sampleRows _ _ _ hr)
            · rw [Except.ok.injEq] at h
              subst h
              exact ne_of_mem_fewShotPool (List.take_subset _ _ hr)

/-- **C3 witness.** A concrete selection: two rows, current row 0,
`count = 1` — the selected row is row 1, whose index differs from 0. -/
theorem few_shot_excludes_current_row_witness :
    ((1 : Nat), ([(lit "q", PValue.s (lit "b"))] : Row)).1 ≠ 0 :=
  few_shot_excludes_current_row
    ⟨some 1, some (lit "shared_ordered_first_n"), some (lit "all")⟩
    ⟨[lit "q"], [(0, [(lit "q", .s (lit "a"))]), (1, [(lit "q", .s (lit "b"))])]⟩
    0 none none [(1, [(lit "q", .s (lit "b"))])] (by decide)
    (1, [(lit "q", .s (lit "b"))]) (by decide)

/-- **C4.** With the split filter succeeding, the selector fails — and fails
precisely with `FewShotDataInsufficientError(requested, available, split)` —
exactly when the pool (after the split filter and excluding the current row)
has fewer rows than the requested count; it succeeds exactly when
`count ≤ |pool|`.  In particular `count = |pool|` succeeds and
`count = |pool| + 1` fails. -/
theorem few_shot_sufficiency (cfg : FewShotFieldCfg) (data : DataFrame)
    (idx : Nat) (os ss : Option Nat) (filtered : List (Nat × Row))
    (hfilter : filterBySplit data (cfgSplit cfg) = .ok filtered) :
    ((fewShotSampledRows cfg data idx os ss).isOk = true ↔
      cfgCount cfg ≤ (fewShotPool filtered idx).length) ∧
    (fewShotSampledRows cfg data idx os ss =
        .error (.insufficientData (cfgCount cfg)
          (fewShotPool filtered idx).length (cfgSplit cfg)) ↔
      (fewShotPool filtered idx).length < cfgCount cfg) := by
  unfold fewShotSampledRows
  rw [hfilter]
  dsimp only
  by_cases hlt : (fewShotPool filtered idx).length < cfgCount cfg
  · rw [if_pos hlt]
    constructor
    · simp [Except.isOk, Except.toBool]; omega
    · simp [hlt]
  · rw [if_neg hlt]
    have hle : cfgCount cfg ≤ (fewShotPool filtered idx).length :=
      Nat.not_lt.mp hlt
    constructor
    · (repeat' split) <;> simp [Except.isOk, Except.toBool, hle]
    · (repeat' split) <;> simp [hlt]

/-- **C4 witness.** With a two-row dataset and the current row excluded the
pool has one row; `count = 1` succeeds. -/
theorem few_shot_sufficiency_witness :
    (fewShotSampledRows
      ⟨some 1, some (lit "shared_ordered_first_n"), some (lit "all")⟩
      ⟨[lit "q"], [(0, [(lit "q", .s (lit "a"))]), (1, [(lit "q", .s (lit "b"))])]⟩
      0 none none).isOk = true :=
  (few_shot_sufficiency
    ⟨some 1, some (lit "shared_ordered_first_n"), some (lit "all")⟩
    ⟨[lit "q"], [(0, [(lit "q", .s (lit "a"))]), (1, [(lit "q", .s (lit "b"))])]⟩
    0 none none _ rfl).1.mpr (by decide)

/-- A two-row dataset with no `split` column (only a `q` column). -/
def noSplitDF : DataFrame :=
  ⟨[lit "q"], [(0, [(lit "q", .s (lit "a"))]), (1, [(lit "q", .s (lit "b"))])]⟩

/-- **C5 counterexample.** On a dataset with no `split` column and
`split = "train"`, the pool builder does *not* fall back to the whole dataset:
`data.get('split', 'train')` returns the scalar default, the comparison
collapses to the Python boolean `True`, and `data[True]` raises `KeyError`, so
the selector aborts (here surfaced through `fewShotSampledRows` as well). -/
theorem filter_by_split_no_column_cex :
    (lit "split") ∉ noSplitDF.cols ∧
    filterBySplit noSplitDF (lit "train") = .error (.keyError true) ∧
    filterBySplit noSplitDF (lit "train") ≠ .ok noSplitDF.rows ∧
    fewShotSampledRows ⟨some 1, some (lit "random_per_row"), some (lit "train")⟩
        noSplitDF 0 none none = .error (.keyError true) := by
  refine ⟨by decide, by decide, by decide, by decide⟩

/-- **C5 (amended).** For `split ∈ {"train","test"}`: when the dataset has a
`split` column exactly the rows whose `split` value matches are kept; when it
has none, the scalar fallback of `data.get('split', 'train')` makes the
DataFrame indexing raise `KeyError` instead of using the whole dataset.  The
whole dataset is the pool only for `split = "all"` (any token other than
`"train"`/`"test"`). -/
theorem filter_by_split_behaviour (data : DataFrame) (split : Str) :
    (split = lit "train" ∨ split = lit "test" →
      ((lit "split") ∈ data.cols →
        filterBySplit data split =
          .ok (data.rows.filter
            (fun r => decide (rowLookup r.2 (lit "split") = some (.s split))))) ∧
      ((lit "split") ∉ data.cols →
        filterBySplit data split =
          .error (.keyError (decide (split = lit "train"))))) ∧
    (split ≠ lit "train" → split ≠ lit "test" →
      filterBySplit data split = .ok data.rows) := by
  constructor
  · rintro (rfl | rfl)
    · constructor
      · intro hcol
        unfold filterBySplit
        rw [if_pos rfl, if_pos hcol]
      · intro hcol
        unfold filterBySplit
        rw [if_pos rfl, if_neg hcol]
        decide
    · constructor
      · intro hcol
        unfold filterBySplit
        rw [if_neg (by decide), if_pos rfl, if_pos hcol]
      · intro hcol
        unfold filterBySplit
        rw [if_neg (by decide), if_pos rfl, if_neg hcol]
        decide
  · intro h1 h2
    unfold filterBySplit
    rw [if_neg h1, if_neg h2]

/-- **C5 witness.** On a dataset with a `split` column, `split = "train"`
keeps exactly the matching rows. -/
theorem filter_by_split_behaviour_witness :
    filterBySplit
        ⟨[lit "q", lit "split"],
         [(0, [(lit "q", .s (lit "a")), (lit "split", .s (lit "train"))]),
          (1, [(lit "q", .s (lit "b")), (lit "split", .s (lit "test"))])]⟩
        (lit "train") =
      .ok [(0, [(lit "q", .s (lit "a")), (lit "split", .s (lit "train"))])] := by
  have h := (filter_by_split_behaviour
    ⟨[lit "q", lit "split"],
     [(0, [(lit "q", .s (lit "a")), (lit "split", .s (lit "train"))]),
      (1, [(lit "q", .s (lit "b")), (lit "split", .s (lit "test"))])]⟩
    (lit "train")).1 (Or.inl rfl)
  rw [h.1 (by decide)]
  decide

/-! ## C2, C6 — field expander -/

theorem foldl_extends {α β : Type} (g : List α → β → List α)
    (hg : ∀ a b, ∃ t, g a b = a ++ t) :
    ∀ (l : List β) (acc : List α), ∃ t, l.foldl g acc = acc ++ t := by
  intro l
  induction l with
  | nil => intro acc; exact ⟨[], by simp⟩
  | cons b bs ih =>
    intro acc
    obtain ⟨t1, ht1⟩ := hg acc b
    obtain ⟨t2, ht2⟩ := ih (g acc b)
    exact ⟨t1 ++ t2, by
      rw [List.foldl_cons, ht2, ht1, List.append_assoc]⟩

theorem stepVariationType_extends (augment : Augment)
    (ib : FieldAugmentationData → Option IdentData)
    (fd : FieldAugmentationData) (acc : List FieldVariation) (vt : Str) :
    ∃ t, stepVariationType augment ib fd acc vt = acc ++ t := by
  unfold stepVariationType
  split
  · split
    · exact ⟨[], by simp⟩
    · split
      · apply foldl_extends
        intro a b
        cases b with
        | str t => exact ⟨[], by simp⟩
        | otherDict t => exact ⟨[], by simp⟩
        | shuffleDict d idx =>
          dsimp only
          split
          · exact ⟨[], by simp⟩
          · exact ⟨_, rfl⟩
      · exact ⟨[], by simp⟩
  · apply foldl_extends
    intro a b
    dsimp only
    split
    · exact ⟨[], by simp⟩
    · exact ⟨_, rfl⟩

theorem accumulateVG_cons (augment : Augment)
    (evalPy : Str → Row → Option PValue) (fd : FieldAugmentationData) :
    ∃ t, accumulateFieldVariationsVG augment evalPy fd =
      originalVariationVG fd :: t := by
  obtain ⟨t, ht⟩ := foldl_extends
    (stepVariationType augment (shuffleIdentDataVG evalPy) fd)
    (fun a b => stepVariationType_extends augment (shuffleIdentDataVG evalPy)
      fd a b)
    fd.variationTypes [originalVariationVG fd]
  exact ⟨t, by simpa [accumulateFieldVariationsVG] using ht⟩

theorem dedupGo_sublist (l : List FieldVariation) :
    ∀ seen, List.Sublist (dedupVariationsGo seen l) l := by
  induction l with
  | nil => intro seen; simp [dedupVariationsGo]
  | cons v rest ih =>
    intro seen
    rw [dedupVariationsGo]
    split
    · exact (ih seen).cons v
    · exact (ih (seen ++ [variationKey v])).cons₂ v

theorem dedupGo_keys (l : List FieldVariation) :
    ∀ seen, ((dedupVariationsGo seen l).map variationKey).Nodup ∧
      ∀ k ∈ (dedupVariationsGo seen l).map variationKey, k ∉ seen := by
  induction l with
  | nil => intro seen; simp [dedupVariationsGo]
  | cons v rest ih =>
    intro seen
    rw [dedupVariationsGo]
    split
    · exact ih seen
    · rename_i hns
      obtain ⟨hnodup, hnotin⟩ := ih (seen ++ [variationKey v])
      constructor
      · simp only [List.map_cons, List.nodup_cons]
        refine ⟨fun hmem => ?_, hnodup⟩
        have := hnotin _ hmem
        simp at this
      · intro k hk
        simp only [List.map_cons, List.mem_cons] at hk
        rcases hk with rfl | hk
        · intro hmem
          exact hns (List.elem_iff.mpr hmem)
        · intro hmem
          exact hnotin _ hk (by simp [hmem])

/-- A productive shuffle augmenter output: used to show the expander accepts
shuffle output even without an Index-kind gold. -/
def augShuf : Augment := fun _ _ _ => [.shuffleDict (lit "B, A") 1]

/-- An expression evaluator that always fails (its value is irrelevant to the
inputs below, whose gold fields are plain names). -/
def evalNone : Str → Row → Option PValue := fun _ _ => none

/-- Shuffle configured on a field of a row with no gold configuration at all. -/
def fdNoGold : FieldAugmentationData :=
  { fieldName := lit "opts"
    fieldValue := lit "A, B"
    variationTypes := [lit "shuffle"]
    variationConfig := ⟨3, 100⟩
    rowData := [(lit "opts", .s (lit "A, B"))]
    goldConfig := ⟨none, lit "index", none⟩ }

/-- Shuffle configured on a field whose gold is of kind *value* (not Index)
and has no `options_field`. -/
def fdValueGold : FieldAugmentationData :=
  { fieldName := lit "opts"
    fieldValue := lit "A, B"
    variationTypes := [lit "shuffle"]
    variationConfig := ⟨3, 100⟩
    rowData := [(lit "opts", .s (lit "A, B")), (lit "ans", .s (lit "B"))]
    goldConfig := ⟨some (lit "ans"), lit "value", none⟩ }

/-- **C2 counterexample.** The claim requires a fatal
`ShuffleRequiresIndexGold` failure whenever `shuffle` is configured without an
Index-kind gold with matching `options_field`.  The code does not fail on
either input: with no gold at all the expander silently skips the augmenter
and returns the original value (generation continues for the row), and with a
*value*-kind gold (no Index, no `options_field`) it happily runs the shuffle
and accepts its output.  No `ShuffleRequiresIndexGold` error exists in the
code, at validation time or later. -/
theorem shuffle_without_index_gold_cex :
    generateFieldVariationsVG augShuf evalNone fdNoGold =
      [⟨lit "A, B", none⟩] ∧
    generateFieldVariationsVG augShuf evalNone fdValueGold =
      [⟨lit "A, B", none⟩, ⟨lit "B, A", some (lit "ans", .i 1)⟩] := by
  constructor <;> decide

/-- **C2 (amended).** If the gold field is missing (none configured, or not
present in the row), the expander skips the shuffle augmenter — contributing
nothing, raising nothing — and, when `shuffle` is the only configured
augmenter, returns the original-value singleton (truncated to the per-field
budget): generation for the row simply continues. -/
theorem shuffle_no_gold_skipped (augment : Augment)
    (evalPy : Str → Row → Option PValue) (fd : FieldAugmentationData)
    (hng : fd.hasGoldField = false) :
    (∀ acc, stepVariationType augment (shuffleIdentDataVG evalPy) fd acc
      (lit "shuffle") = acc) ∧
    (fd.variationTypes = [lit "shuffle"] →
      generateFieldVariationsVG augment evalPy fd =
        [originalVariationVG fd].take fd.variationConfig.variationsPerField) := by
  have hstep : ∀ acc, stepVariationType augment (shuffleIdentDataVG evalPy) fd
      acc (lit "shuffle") = acc := by
    intro acc
    unfold stepVariationType
    rw [if_pos rfl, if_pos (by rw [hng]; rfl)]
  refine ⟨hstep, fun hvt => ?_⟩
  unfold generateFieldVariationsVG accumulateFieldVariationsVG
  rw [hvt]
  simp only [List.foldl_cons, List.foldl_nil, hstep]
  rw [dedupVariations, dedupVariationsGo, if_neg (by simp), dedupVariationsGo]

/-- **C2 witness.** On the concrete no-gold input the amended behaviour is
exactly the original singleton. -/
theorem shuffle_no_gold_skipped_witness :
    generateFieldVariationsVG augShuf evalNone fdNoGold =
      [originalVariationVG fdNoGold].take 3 :=
  (shuffle_no_gold_skipped augShuf evalNone fdNoGold (by decide)).2 rfl

/-- A field-expander input with a zero per-field budget. -/
def fdZeroBudget : FieldAugmentationData :=
  { fieldName := lit "q"
    fieldValue := lit "v"
    variationTypes := [lit "rewording"]
    variationConfig := ⟨0, 100⟩
    rowData := [(lit "q", .s (lit "v"))]
    goldConfig := ⟨none, lit "value", none⟩ }

/-- A one-variant augmenter used for the zero-budget counterexample. -/
def augOne : Augment := fun _ _ _ => [.str (lit "w")]

/-- **C6 counterexample.** With `variations_per_field = 0` the expander
truncates everything away and returns the empty list, so its first element is
*not* the original formatted field value as the claim states (there is no
first element at all). -/
theorem field_expander_zero_budget_cex :
    generateFieldVariationsVG augOne evalNone fdZeroBudget = [] ∧
    (generateFieldVariationsVG augOne evalNone fdZeroBudget).head? ≠
      some (originalVariationVG fdZeroBudget) := by
  constructor <;> decide

/-- **C6 (amended).** Provided `variations_per_field ≥ 1`, the field expander
returns a list whose first element is the original formatted field value,
whose elements are pairwise distinct on the `(data, gold_update)` key, which
is a sublist (insertion order preserved, first occurrences kept) of the
accumulated augmenter outputs, and whose length is at most
`variations_per_field`; with a zero budget it returns the empty list. -/
theorem field_expander_props (augment : Augment)
    (evalPy : Str → Row → Option PValue) (fd : FieldAugmentationData)
    (hvpf : 1 ≤ fd.variationConfig.variationsPerField) :
    (generateFieldVariationsVG augment evalPy fd).head? =
      some (originalVariationVG fd) ∧
    (originalVariationVG fd).data = formatFieldValue (.s fd.fieldValue) ∧
    ((generateFieldVariationsVG augment evalPy fd).map variationKey).Nodup ∧
    List.Sublist (generateFieldVariationsVG augment evalPy fd)
      (accumulateFieldVariationsVG augment evalPy fd) ∧
    (generateFieldVariationsVG augment evalPy fd).length ≤
      fd.variationConfig.variationsPerField := by
  obtain ⟨t, ht⟩ := accumulateVG_cons augment evalPy fd
  obtain ⟨m, hm⟩ := Nat.exists_eq_add_of_le hvpf
  refine ⟨?_, ?_, ?_, ?_, ?_⟩
  · unfold generateFieldVariationsVG
    rw [ht, dedupVariations, dedupVariationsGo, if_neg (by simp), hm]
    simp [Nat.add_comm 1 m, List.take_succ_cons]
  · unfold originalVariationVG
    dsimp only
    split
    · split <;> rfl
    · rfl
  · have hnodup := (dedupGo_keys (accumulateFieldVariationsVG augment evalPy fd)
      []).1
    have hsub : List.Sublist
        ((generateFieldVariationsVG augment evalPy fd).map variationKey)
        ((dedupVariations (accumulateFieldVariationsVG augment evalPy fd)).map
          variationKey) :=
      (List.take_sublist _ _).map variationKey
    exact hnodup.sublist hsub
  · exact (List.take_sublist _ _).trans (dedupGo_sublist _ [])
  · exact (List.length_take_le _ _)

/-- **C6 witness.** On a concrete input with budget 2, the expander keeps the
original first, deduplicates and respects the budget. -/
theorem field_expander_props_witness :
    (generateFieldVariationsVG augOne evalNone
        ⟨lit "q", lit "v", [lit "rewording"], ⟨2, 100⟩,
          [(lit "q", PValue.s (lit "v"))], ⟨none, lit "value", none⟩⟩).head? =
      some (originalVariationVG
        ⟨lit "q", lit "v", [lit "rewording"], ⟨2, 100⟩,
          [(lit "q", PValue.s (lit "v"))], ⟨none, lit "value", none⟩⟩) :=
  (field_expander_props augOne evalNone _ (by decide)).1

/-! ## C8 — budget bounds; C1 — determinism -/

theorem productLists_length {α : Type} : ∀ ls : List (List α),
    (productLists ls).length = (ls.map List.length).prod
  | [] => rfl
  | l :: ls => by
    simp only [productLists, List.map_cons, List.prod_cons]
    induction l with
    | nil => simp
    | cons x xs ihx =>
      simp only [List.flatMap_cons, List.length_append, List.length_map,
        List.length_cons] at ihx ⊢
      rw [productLists_length ls, ihx]
      ring

theorem createRowVariationsGo_length (ctx : VariationContext)
    (fewShot : Option FewShotFieldCfg) (varyingFields : List Str)
    (maxVariations : Nat) :
    ∀ (combos : List (List FieldVariation)) (acc out : List GeneratedVariation),
      createRowVariationsGo ctx fewShot varyingFields maxVariations combos acc =
        .ok out →
      out.length ≤ acc.length + combos.length := by
  intro combos
  induction combos with
  | nil =>
    intro acc out h
    rw [createRowVariationsGo] at h
    cases h
    simp
  | cons combo rest ih =>
    intro acc out h
    rw [createRowVariationsGo] at h
    split at h
    · cases h; omega
    · split at h
      · cases h
      · have := ih _ _ h
        simp only [List.length_append, List.length_cons,
          List.length_nil] at this ⊢
        omega

/-- Per-row bound: a successful `_create_row_variations` emits at most
`∏ |per-field variants|` variations. -/
theorem createRowVariations_length (ctx : VariationContext)
    (fewShot : Option FewShotFieldCfg) (maxVariations : Nat)
    (out : List GeneratedVariation)
    (h : createRowVariations ctx fewShot maxVariations = .ok out) :
    out.length ≤ (ctx.fieldVariations.map (fun p => p.2.length)).prod := by
  unfold createRowVariations at h
  dsimp only at h
  split at h
  · cases h; simp
  · have := createRowVariationsGo_length ctx fewShot _ maxVariations _ _ _ h
    simp only [List.length_nil, Nat.zero_add] at this
    rw [productLists_length, List.map_map] at this
    exact this

theorem generateVariationsGo_bound (augment : Augment)
    (instructionTemplate : Str) (variationFields : List (Str × List Str))
    (gold : GoldConfig) (fewShot : Option FewShotFieldCfg) (data : DataFrame)
    (cfg : VariationConfig) :
    ∀ (rows : List (Nat × Row)) (acc out : List GeneratedVariation),
      generateVariationsGo augment instructionTemplate variationFields gold
        fewShot data cfg rows acc = .ok out →
      out.length ≤ cfg.maxVariations := by
  intro rows
  induction rows with
  | nil =>
    intro acc out h
    rw [generateVariationsGo] at h
    cases h
    exact List.length_take_le _ _
  | cons r rest ih =>
    intro acc out h
    rw [generateVariationsGo] at h
    split at h
    · cases h; exact List.length_take_le _ _
    · dsimp only at h
      split at h
      · cases h
      · exact ih _ _ h

theorem generateVariationsGo_zero (augment : Augment)
    (instructionTemplate : Str) (variationFields : List (Str × List Str))
    (gold : GoldConfig) (fewShot : Option FewShotFieldCfg) (data : DataFrame)
    (cfg : VariationConfig) (h0 : cfg.maxVariations = 0) :
    ∀ (rows : List (Nat × Row)) (acc : List GeneratedVariation),
      generateVariationsGo augment instructionTemplate variationFields gold
        fewShot data cfg rows acc = .ok [] := by
  intro rows
  induction rows with
  | nil =>
    intro acc
    rw [generateVariationsGo, h0]
    simp
  | cons r rest ih =>
    intro acc
    cases r with
    | mk idx row =>
      rw [generateVariationsGo]
      rw [if_pos (by omega)]
      rw [h0]
      simp

/-- **C8.** (i) Every successful per-row combination pass emits at most the
product of the per-field variant-list sizes; (ii) every successful engine run
returns at most `max_variations` variations; (iii) with `max_variations = 0`
(and the engine's preconditions satisfied) the run returns the empty list. -/
theorem engine_budget_bounds (augment : Augment) (instructionTemplate : Str)
    (variationFields : List (Str × List Str)) (gold : GoldConfig)
    (fewShot : Option FewShotFieldCfg) (data : DataFrame)
    (cfg : VariationConfig) :
    (∀ (ctx : VariationContext) (fs : Option FewShotFieldCfg) (m : Nat)
      (out : List GeneratedVariation),
      createRowVariations ctx fs m = .ok out →
      out.length ≤ (ctx.fieldVariations.map (fun p => p.2.length)).prod) ∧
    (∀ out, generate_variations augment instructionTemplate variationFields
        gold fewShot data cfg = .ok out →
      out.length ≤ cfg.maxVariations) ∧
    (cfg.maxVariations = 0 → instructionTemplate.isEmpty = false →
      (fewShot.isSome && (goldFieldTruthy gold).isNone) = false →
      generate_variations augment instructionTemplate variationFields gold
        fewShot data cfg = .ok []) := by
  refine ⟨fun ctx fs m out h => createRowVariations_length ctx fs m out h,
    fun out h => ?_, fun h0 hit hfs => ?_⟩
  · unfold generate_variations at h
    split at h
    · cases h
    · split at h
      · cases h
      · split at h
        · rename_i l hgo
          cases h
          exact generateVariationsGo_bound augment instructionTemplate
            variationFields gold fewShot data cfg _ _ _ hgo
        · cases h
  · unfold generate_variations
    rw [if_neg (by simp [hit]), if_neg (by simp [hfs])]
    rw [generateVariationsGo_zero augment instructionTemplate variationFields
      gold fewShot data cfg h0 data.rows []]

/-- **C8 witness.** A concrete zero-budget run returns the empty list. -/
theorem engine_budget_bounds_witness :
    generate_variations augOne (lit "Q: {q}") [] ⟨none, lit "value", none⟩ none
        noSplitDF ⟨1, 0⟩ = .ok [] :=
  (engine_budget_bounds augOne (lit "Q: {q}") [] ⟨none, lit "value", none⟩ none
    noSplitDF ⟨1, 0⟩).2.2 rfl (by decide) (by decide)

/-- **C1.** Determinism: the engine driver and the multiple-choice augmenter
are functions of their inputs alone — with identical templates, datasets,
configurations, augmenter dispatch (which carries any derived sub-seeds) and
identical ambient RNG state, two runs produce identical output sequences: the
same variations with the same prompts, conversations and gold updates, in the
same order. -/
theorem generation_deterministic :
    ∀ (aug aug' : Augment) (it it' : Str) (vf vf' : List (Str × List Str))
      (g g' : GoldConfig) (fs fs' : Option FewShotFieldCfg)
      (d d' : DataFrame) (c c' : VariationConfig) (n n' : Nat) (p p' : Str)
      (mi mi' : Option MCIdent) (s s' : Nat),
      aug = aug' → it = it' → vf = vf' → g = g' → fs = fs' → d = d' →
      c = c' → n = n' → p = p' → mi = mi' → s = s' →
      generate_variations aug it vf g fs d c =
        generate_variations aug' it' vf' g' fs' d' c' ∧
      multipleChoiceAugment n p mi s = multipleChoiceAugment n' p' mi' s' := by
  intro aug aug' it it' vf vf' g g' fs fs' d d' c c' n n' p p' mi mi' s s'
  intro h1 h2 h3 h4 h5 h6 h7 h8 h9 h10 h11
  subst h1; subst h2; subst h3; subst h4; subst h5; subst h6; subst h7
  subst h8; subst h9; subst h10; subst h11
  exact ⟨rfl, rfl⟩

/-- **C1 witness.** Two runs of the engine driver and of the multiple-choice
augmenter at a concrete input agree. -/
theorem generation_deterministic_witness :
    generate_variations augOne (lit "Q: {q}") [] ⟨none, lit "value", none⟩
        none noSplitDF ⟨2, 10⟩ =
      generate_variations augOne (lit "Q: {q}") [] ⟨none, lit "value", none⟩
        none noSplitDF ⟨2, 10⟩ ∧
    multipleChoiceAugment 3 (lit "prompt") none 7 =
      multipleChoiceAugment 3 (lit "prompt") none 7 :=
  generation_deterministic augOne augOne (lit "Q: {q}") (lit "Q: {q}") [] []
    ⟨none, lit "value", none⟩ ⟨none, lit "value", none⟩ none none
    noSplitDF noSplitDF ⟨2, 10⟩ ⟨2, 10⟩ 3 3 (lit "prompt") (lit "prompt")
    none none 7 7 rfl rfl rfl rfl rfl rfl rfl rfl rfl rfl rfl

/-! ## C7 — gold placeholder stripping and few-shot gold population -/

/-- Every occurrence of `'{'` in `s` starts an occurrence of the placeholder
`p` (the condition under which a single `str.replace` pass removes every
placeholder without splicing a new one out of the surrounding text). -/
def braceDisciplined (p s : Str) : Prop :=
  ∀ pre suf, s = pre ++ '{' :: suf → p.isPrefixOf ('{' :: suf) = true

theorem braceDisciplined_suffix {p s b : Str} (h : braceDisciplined p s)
    (a : Str) (hs : s = a ++ b) : braceDisciplined p b := by
  intro pre suf hb
  exact h (a ++ pre) suf (by rw [hs, hb, List.append_assoc])

theorem braceDisciplined_of_no_brace (p s : Str) (h : '{' ∉ s) :
    braceDisciplined p s := by
  intro pre suf hs
  exact absurd (by rw [hs]; simp : '{' ∈ s) h

theorem no_brace_pyReplaceGo (g : Str) :
    ∀ (fuel : Nat) (s : Str), s.length ≤ fuel →
      braceDisciplined ('{' :: g ++ ['}']) s →
      '{' ∉ pyReplaceGo ('{' :: g ++ ['}']) [] fuel s := by
  intro fuel
  induction fuel with
  | zero =>
    intro s hlen hdisc
    have hs : s = [] := List.eq_nil_of_length_eq_zero (Nat.le_zero.mp hlen)
    subst hs
    simp [pyReplaceGo]
  | succ fuel ih =>
    intro s hlen hdisc
    cases s with
    | nil => simp [pyReplaceGo]
    | cons c rest =>
      rw [pyReplaceGo]
      by_cases hp : ('{' :: g ++ ['}']).isPrefixOf (c :: rest) = true
      · rw [if_pos (by rw [hp]; rfl)]
        simp only [List.nil_append]
        apply ih
        · rw [List.length_drop]
          simp only [List.length_cons] at hlen ⊢
          have : 1 ≤ ('{' :: g ++ ['}']).length := by simp
          omega
        · exact braceDisciplined_suffix hdisc _
            (List.take_append_drop _ _).symm
      · rw [if_neg (fun hcond => hp (by
          simp only [Bool.and_eq_true] at hcond
          exact hcond.2))]
        intro hmem
        cases hmem with
        | head => exact hp (hdisc [] rest rfl)
        | tail _ hmem =>
          refine ih rest ?_ (braceDisciplined_suffix hdisc [c] rfl) hmem
          simp only [List.length_cons] at hlen
          omega

theorem no_brace_pyReplace (g s : Str)
    (hdisc : braceDisciplined ('{' :: g ++ ['}']) s) :
    '{' ∉ pyReplace s ('{' :: g ++ ['}']) [] :=
  no_brace_pyReplaceGo g s.length s le_rfl hdisc

theorem not_containsSub_of_no_brace {g t : Str} (h : '{' ∉ t) :
    containsSub ('{' :: g ++ ['}']) t = false := by
  cases hc : containsSub ('{' :: g ++ ['}']) t with
  | false => rfl
  | true =>
    exact absurd (mem_of_containsSub hc (List.mem_cons_self _ _)) h

theorem no_brace_createMainInput (iv : Str) (rv : List (Str × Str)) (g : Str)
    (hg : g.isEmpty = false)
    (hdisc : braceDisciplined ('{' :: g ++ ['}'])
      (fillTemplatePlaceholders iv rv)) :
    '{' ∉ createMainInput iv rv (some g) := by
  unfold createMainInput
  dsimp only
  rw [if_neg (by simp [hg])]
  intro hmem
  exact no_brace_pyReplace g _ hdisc (mem_pyStrip hmem)

theorem no_brace_fewShotString {examples : List (Str × Str)}
    (hex : ∀ e ∈ examples, '{' ∉ e.1 ∧ '{' ∉ e.2) :
    '{' ∉ formatFewShotAsString examples := by
  unfold formatFewShotAsString
  split
  · simp
  · intro hmem
    rcases mem_joinSep hmem with hsep | ⟨part, hpart, hcp⟩
    · exact absurd hsep (by decide)
    · rcases List.mem_map.mp hpart with ⟨e, he, rfl⟩
      rcases List.mem_append.mp hcp with hcp | hcp
      · rcases List.mem_append.mp hcp with hcp | hcp
        · exact (hex e he).1 hcp
        · exact absurd hcp (by decide)
      · exact (hex e he).2 hcp

theorem no_brace_formatFinalPrompt {examples : List (Str × Str)} {main : Str}
    (hex : ∀ e ∈ examples, '{' ∉ e.1 ∧ '{' ∉ e.2) (hm : '{' ∉ main) :
    '{' ∉ formatFinalPrompt examples main := by
  unfold formatFinalPrompt
  dsimp only
  intro hmem
  rcases mem_joinSep hmem with hsep | ⟨part, hpart, hcp⟩
  · exact absurd hsep (by decide)
  · rcases List.mem_append.mp hpart with hp | hp
    · have hfs : part = formatFewShotAsString examples := by
        split at hp
        · cases hp
        · rw [List.mem_singleton] at hp; exact hp
      exact no_brace_fewShotString hex (hfs ▸ hcp)
    · have hmn : part = main := by
        split at hp
        · cases hp
        · rw [List.mem_singleton] at hp; exact hp
      exact hm (hmn ▸ hcp)

theorem goldOutputValue_no_enum (row : Row) (g : Str) (gt : Str)
    (of : Option Str) :
    goldOutputValue row g gt of [] = convertIndexToValue row g gt of := by
  cases of with
  | none => rfl
  | some o => simp [goldOutputValue, List.find?]

/-- The per-row fold of `renderFewShotExample`, named for the lemmas below. -/
def renderFold (row : Row) (g : Str) (gt : Str) (of : Option Str)
    (enumCfgs : List (Str × Str)) :
    List (Str × PValue) → List (Str × Str) × Str → List (Str × Str) × Str :=
  fun cells acc =>
    cells.foldl
      (fun acc cell =>
        if !g.isEmpty && cell.1 = g then
          (acc.1, goldOutputValue row g gt of enumCfgs)
        else
          (acc.1 ++ [(cell.1, inputCellValue cell.1 cell.2 enumCfgs)], acc.2))
      acc

theorem renderFold_keeps (row : Row) (g : Str) (gt : Str) (of : Option Str)
    (enumCfgs : List (Str × Str)) :
    ∀ cells acc, acc.2 = goldOutputValue row g gt of enumCfgs →
      (renderFold row g gt of enumCfgs cells acc).2 =
        goldOutputValue row g gt of enumCfgs := by
  intro cells
  induction cells with
  | nil => intro acc h; exact h
  | cons c cs ih =>
    intro acc h
    rw [renderFold, List.foldl_cons]
    by_cases hc : (!g.isEmpty && decide (c.1 = g)) = true
    · exact ih _ (by rw [if_pos hc])
    · exact ih _ (by rw [if_neg hc]; exact h)

theorem renderFold_output (row : Row) (g : Str) (gt : Str) (of : Option Str)
    (enumCfgs : List (Str × Str)) (hg : g.isEmpty = false) :
    ∀ cells acc, (∃ c ∈ cells, c.1 = g) →
      (renderFold row g gt of enumCfgs cells acc).2 =
        goldOutputValue row g gt of enumCfgs := by
  intro cells
  induction cells with
  | nil => rintro acc ⟨c, hc, _⟩; cases hc
  | cons c cs ih =>
    rintro acc ⟨c', hc', hcg⟩
    rw [renderFold, List.foldl_cons]
    rcases List.mem_cons.mp hc' with rfl | hc'
    · have hcond : (!g.isEmpty && decide (c'.1 = g)) = true := by
        simp [hg, hcg]
      rw [if_pos hcond]
      exact renderFold_keeps row g gt of enumCfgs cs _ rfl
    · by_cases hcond : (!g.isEmpty && decide (c.1 = g)) = true
      · rw [if_pos hcond]
        exact renderFold_keeps row g gt of enumCfgs cs _ rfl
      · rw [if_neg hcond]
        exact ih _ ⟨c', hc', hcg⟩

/-- Unfolding equation for `renderFewShotExample` with a configured gold
field, phrased through `renderFold`. -/
theorem renderFewShotExample_eq (pf g gt : Str) (of : Option Str)
    (enumCfgs : List (Str × Str)) (row : Row) :
    renderFewShotExample pf (some g) gt of enumCfgs row =
      (if (fillTemplatePlaceholders
            (if g.isEmpty then pf
             else pyStrip (pyReplace pf ('{' :: g ++ ['}']) []))
            (renderFold row g gt of enumCfgs row ([], [])).1).isEmpty then
        none
      else
        some (fillTemplatePlaceholders
            (if g.isEmpty then pf
             else pyStrip (pyReplace pf ('{' :: g ++ ['}']) []))
            (renderFold row g gt of enumCfgs row ([], [])).1,
          (renderFold row g gt of enumCfgs row ([], [])).2)) := rfl

theorem render_output_populated (pf : Str) (g : Str) (gt : Str)
    (of : Option Str) (row : Row) (hg : g.isEmpty = false)
    (hmem : g ∈ rowKeys row) (inp out : Str)
    (h : renderFewShotExample pf (some g) gt of [] row = some (inp, out)) :
    out = convertIndexToValue row g gt of := by
  rw [renderFewShotExample_eq] at h
  rw [if_neg (show ¬(List.isEmpty g = true) by simp [hg])] at h
  split at h
  · cases h
  · rw [Option.some.injEq, Prod.mk.injEq] at h
    obtain ⟨c, hc, hcg⟩ := List.mem_map.mp hmem
    have hout := renderFold_output row g gt of [] hg row ([], [])
      ⟨c, hc, hcg⟩
    rw [← h.2, hout, goldOutputValue_no_enum row g gt of]

/-- A decidable sufficient check for `braceDisciplined`: scan the text and
require every `'{'` to start an occurrence of the placeholder. -/
def braceOk (p : Str) : Str → Bool
  | [] => true
  | c :: rest =>
    if c = '{' then p.isPrefixOf (c :: rest) && braceOk p rest
    else braceOk p rest

theorem braceOk_sound (p : Str) :
    ∀ (pre suf : Str), braceOk p (pre ++ '{' :: suf) = true →
      p.isPrefixOf ('{' :: suf) = true := by
  intro pre
  induction pre with
  | nil =>
    intro suf h
    rw [List.nil_append, braceOk, if_pos rfl] at h
    simp only [Bool.and_eq_true] at h
    exact h.1
  | cons a pre ih =>
    intro suf h
    rw [List.cons_append, braceOk] at h
    split at h
    · simp only [Bool.and_eq_true] at h
      exact ih suf h.2
    · exact ih suf h

theorem braceDisciplined_of_braceOk {p s : Str} (h : braceOk p s = true) :
    braceDisciplined p s := by
  intro pre suf hs
  exact braceOk_sound p pre suf (hs ▸ h)

/-- **C7 counterexample.** The gold placeholder *can* occur in an emitted
variation's main question and prompt: the removal is a single left-to-right
`str.replace` pass, and with prompt template `"{{a}a}"` and gold field `"a"`
removing the inner occurrence splices the surrounding text into a fresh
`"{a}"`.  The full engine emits exactly that prompt. -/
theorem gold_placeholder_survives_cex :
    createMainInput (lit "{{a}a}") [] (some (lit "a")) = lit "{a}" ∧
    containsSub ('{' :: lit "a" ++ ['}'])
      (createMainInput (lit "{{a}a}") [] (some (lit "a"))) = true ∧
    (generate_variations augOne (lit "{{a}a}") []
        ⟨some (lit "a"), lit "value", none⟩ none
        ⟨[lit "q"], [(0, [(lit "q", .s (lit "x"))])]⟩ ⟨1, 10⟩).map
      (List.map (fun v => v.prompt)) = .ok [lit "{a}"] ∧
    containsSub ('{' :: lit "a" ++ ['}']) (lit "{a}") = true := by
  refine ⟨by decide, by decide, by decide, by decide⟩

/-- **C7 (amended).** The gold placeholder is removed from the main question
by one left-to-right `str.replace` pass; whenever every `'{'` of the filled
prompt text starts a whole placeholder occurrence (`braceDisciplined` — in
particular whenever the filled text is brace-free apart from exact
placeholders), the main question and the assembled prompt contain no
occurrence of the placeholder; splicing cases such as `"{{a}a}"` are the only
exceptions.  Each rendered few-shot example carries the populated gold value
of its example row as the output (assistant) part. -/
theorem gold_stripping_and_fewshot_population (iv : Str)
    (rv : List (Str × Str)) (g : Str) (examples : List (Str × Str)) (pf : Str)
    (gt : Str) (of : Option Str) (row : Row) (inp out : Str)
    (hg : g.isEmpty = false)
    (hdisc : braceDisciplined ('{' :: g ++ ['}'])
      (fillTemplatePlaceholders iv rv))
    (hex : ∀ e ∈ examples, '{' ∉ e.1 ∧ '{' ∉ e.2)
    (hmem : g ∈ rowKeys row)
    (hrender : renderFewShotExample pf (some g) gt of [] row =
      some (inp, out)) :
    containsSub ('{' :: g ++ ['}']) (createMainInput iv rv (some g)) =
      false ∧
    containsSub ('{' :: g ++ ['}'])
      (formatFinalPrompt examples (createMainInput iv rv (some g))) =
      false ∧
    out = convertIndexToValue row g gt of := by
  have hmain := no_brace_createMainInput iv rv g hg hdisc
  refine ⟨not_containsSub_of_no_brace hmain,
    not_containsSub_of_no_brace (no_brace_formatFinalPrompt hex hmain),
    render_output_populated pf g gt of row hg hmem inp out hrender⟩

/-- **C7 witness.** A concrete gold-stripped main question, prompt and
populated few-shot output. -/
theorem gold_stripping_and_fewshot_population_witness :
    containsSub ('{' :: lit "a" ++ ['}'])
      (createMainInput (lit "Q: {q} A: {a}") [(lit "q", lit "2+2")]
        (some (lit "a"))) = false ∧
    containsSub ('{' :: lit "a" ++ ['}'])
      (formatFinalPrompt [(lit "Q: 1+1 A:", lit "2")]
        (createMainInput (lit "Q: {q} A: {a}") [(lit "q", lit "2+2")]
          (some (lit "a")))) = false ∧
    lit "2" = convertIndexToValue
      [(lit "q", PValue.s (lit "1+1")), (lit "a", PValue.s (lit "2"))]
      (lit "a") (lit "value") none :=
  gold_stripping_and_fewshot_population (lit "Q: {q} A: {a}")
    [(lit "q", lit "2+2")] (lit "a") [(lit "Q: 1+1 A:", lit "2")]
    (lit "Q: {q} A: {a}") (lit "value") none
    [(lit "q", PValue.s (lit "1+1")), (lit "a", PValue.s (lit "2"))]
    (lit "Q: 1+1 A:") (lit "2") (by decide)
    (braceDisciplined_of_braceOk (by decide)) (by decide) (by decide)
    (by decide)

end PromptSuite
